import Mathlib

/-!
Verification of the grade/attendance/enrollment consistency subsystem of the
edu-manage course-management application (backend/models and backend/routes,
as embedded from backend/models/MockModels.js, docs/DATABASE_DESIGN.md and
docs/CODE_MAP.md of the repository).

JavaScript numbers are modelled as rationals; dates (Date values) as integers
(epoch milliseconds); mongoose documents as structures; route handlers and
pre-save hooks as pure state-transforming functions.  Fallible operations
return Except or pair the new state with an optional error.
-/

namespace Lms

/-! ## Letter-grade tables

Source: submissionSchema.pre save hook, MockModels.js lines 3304-3323
(percentage to letter grade for assignment submissions), and
gradeSchema.pre save hook, MockModels.js lines 3416-3439 (letter grade and
GPA for final course grades).  In the MockModels.js grade-schema snippet the
letter branches below A- are elided with a comment; those branches are taken
from the full listing of the same hook in docs/DATABASE_DESIGN.md lines
471-497, which agree with the submission table on that range. -/

/-- Letter-grade mapping of submissionSchema.pre save (MockModels.js
lines 3304-3323). -/
def calculateLetterGrade (percentage : ℚ) : String :=
  if percentage ≥ 97 then "A+"
  else if percentage ≥ 93 then "A"
  else if percentage ≥ 90 then "A-"
  else if percentage ≥ 87 then "B+"
  else if percentage ≥ 83 then "B"
  else if percentage ≥ 80 then "B-"
  else if percentage ≥ 77 then "C+"
  else if percentage ≥ 73 then "C"
  else if percentage ≥ 70 then "C-"
  else if percentage ≥ 67 then "D+"
  else if percentage ≥ 60 then "D"
  else "F"

/-- Letter-grade mapping of gradeSchema.pre save (MockModels.js lines
3416-3423: branches for A+, A, A- explicit; the remaining branches, elided
there, follow the same hook as listed in DATABASE_DESIGN.md lines 471-497). -/
def gradeLetterGrade (percentage : ℚ) : String :=
  if percentage ≥ 97 then "A+"
  else if percentage ≥ 93 then "A"
  else if percentage ≥ 90 then "A-"
  else if percentage ≥ 87 then "B+"
  else if percentage ≥ 83 then "B"
  else if percentage ≥ 80 then "B-"
  else if percentage ≥ 77 then "C+"
  else if percentage ≥ 73 then "C"
  else if percentage ≥ 70 then "C-"
  else if percentage ≥ 67 then "D+"
  else if percentage ≥ 60 then "D"
  else "F"

/-- GPA mapping of gradeSchema.pre save (MockModels.js lines 3425-3436). -/
def gradeGpa (percentage : ℚ) : ℚ :=
  if percentage ≥ 97 then 4.0
  else if percentage ≥ 93 then 4.0
  else if percentage ≥ 90 then 3.7
  else if percentage ≥ 87 then 3.3
  else if percentage ≥ 83 then 3.0
  else if percentage ≥ 80 then 2.7
  else if percentage ≥ 77 then 2.3
  else if percentage ≥ 73 then 2.0
  else if percentage ≥ 70 then 1.7
  else if percentage ≥ 67 then 1.3
  else if percentage ≥ 60 then 1.0
  else 0.0

/-- Modelled from the spec: the single breakpoint table of section 4.1
(97 gives A+ 4.0, 93 gives A 4.0, 90 gives A- 3.7, 87 gives B+ 3.3,
83 gives B 3.0, 80 gives B- 2.7, 77 gives C+ 2.3, 73 gives C 2.0,
70 gives C- 1.7, 67 gives D+ 1.3, 60 gives D 1.0, else F 0.0),
used as the reference side of the
table-equivalence claim. -/
def specBreakpointTable (percentage : ℚ) : String × ℚ :=
  if percentage ≥ 97 then ("A+", 4.0)
  else if percentage ≥ 93 then ("A", 4.0)
  else if percentage ≥ 90 then ("A-", 3.7)
  else if percentage ≥ 87 then ("B+", 3.3)
  else if percentage ≥ 83 then ("B", 3.0)
  else if percentage ≥ 80 then ("B-", 2.7)
  else if percentage ≥ 77 then ("C+", 2.3)
  else if percentage ≥ 73 then ("C", 2.0)
  else if percentage ≥ 70 then ("C-", 1.7)
  else if percentage ≥ 67 then ("D+", 1.3)
  else if percentage ≥ 60 then ("D", 1.0)
  else ("F", 0.0)

/-! ## Attendance aggregation

Source: the per-student enrollment update loop of the attendance route
(MockModels.js lines 3584-3596) and the attendance-percentage pre-save hook
of enrollmentSchema (MockModels.js lines 3081-3087). -/

/-- Status values of the attendance students array (Attendance schema,
MockModels.js lines 3521-3525). -/
inductive AttStatus where
  | present
  | absent
  | late
  | excused
deriving DecidableEq, Repr

/-- Embedded attendance summary of an Enrollment document (MockModels.js
lines 3050-3054). -/
structure AttendanceSummary where
  totalClasses : ℕ
  attendedClasses : ℕ
  attendancePercentage : ℚ
deriving DecidableEq, Repr

/-- Pre-save hook of enrollmentSchema (MockModels.js lines 3081-3087):
recompute attendancePercentage when totalClasses is positive. -/
def enrollmentPreSave (a : AttendanceSummary) : AttendanceSummary :=
  if a.totalClasses > 0 then
    { a with attendancePercentage :=
        ((a.attendedClasses : ℚ) / (a.totalClasses : ℚ)) * 100 }
  else a

/-- One iteration of the attendance update loop (MockModels.js lines
3584-3596): increment totalClasses, increment attendedClasses iff the status
is present or late, then save (running the enrollment pre-save hook). -/
def applySessionStatus (a : AttendanceSummary) (status : AttStatus) :
    AttendanceSummary :=
  enrollmentPreSave
    { a with
      totalClasses := a.totalClasses + 1,
      attendedClasses :=
        if status = AttStatus.present ∨ status = AttStatus.late then
          a.attendedClasses + 1
        else a.attendedClasses }

/-! ## Submissions and grading

Source: the Assignment and Submission schemas (MockModels.js lines
3117-3160 and 3240-3293), the submission pre-save hook as listed in
DATABASE_DESIGN.md lines 385-405 (isLate recomputation, late penalty,
letter grade), the submission route POST /api/submissions (CODE_MAP.md,
late-submission logic) and the grading route PUT /api/submissions/:id/grade
(CODE_MAP.md lines 3581-3601, grading calculation).  File-upload fields,
ids and notification side effects are omitted; they are out of scope. -/

/-- Assignment document fields used by submission and grading logic
(MockModels.js lines 3117-3160). -/
structure Assignment where
  totalPoints : ℚ
  dueDate : ℤ
  allowLateSubmission : Bool
  latePenalty : ℚ
deriving DecidableEq, Repr

/-- Embedded grade subdocument of a Submission (MockModels.js lines
3276-3288); percentage and letterGrade are optional because a freshly
written grade has them computed by hooks. -/
structure SubGrade where
  points : ℚ
  percentage : Option ℚ
  letterGrade : Option String
deriving DecidableEq, Repr

/-- Submission status enum (MockModels.js lines 3271-3275). -/
inductive SubStatus where
  | submitted
  | graded
  | returned
  | resubmitted
deriving DecidableEq, Repr

/-- Submission document fields used by the grading logic (MockModels.js
lines 3240-3293). -/
structure Submission where
  submittedAt : ℤ
  isLate : Bool
  status : SubStatus
  grade : Option SubGrade
  feedback : Option String
deriving DecidableEq, Repr

/-- JavaScript comparison submittedAt > dueDate on Date values. -/
def submittedLate (submittedAt dueDate : ℤ) : Bool :=
  decide (dueDate < submittedAt)

/-- Pre-save hook of submissionSchema as listed in DATABASE_DESIGN.md lines
385-405: recompute isLate from the current assignment dueDate; then, when a
grade with truthy points is present (the JavaScript guard
this.grade and this.grade.points skips points equal to 0), recompute the
percentage from points, apply the late penalty when isLate and
latePenalty > 0, clamp the stored percentage with Math.max(0, ...), and set
the letter grade from the unclamped value. -/
def submissionPreSave (s : Submission) (a : Assignment) : Submission :=
  let isLateNew := submittedLate s.submittedAt a.dueDate
  match s.grade with
  | some g =>
    if g.points ≠ 0 then
      let pct := g.points / a.totalPoints * 100
      let pct2 :=
        if isLateNew = true ∧ a.latePenalty > 0 then
          pct - pct * (a.latePenalty / 100)
        else pct
      { s with
        isLate := isLateNew,
        grade := some { g with
          percentage := some (max 0 pct2),
          letterGrade := some (calculateLetterGrade pct2) } }
    else { s with isLate := isLateNew }
  | none => { s with isLate := isLateNew }

/-- Error kinds of the submission routes (CODE_MAP.md, submissions). -/
inductive SubmitError where
  | lateSubmissionNotAllowed
deriving DecidableEq, Repr

/-- POST /api/submissions (CODE_MAP.md, late-submission logic): compute
isLate from now versus the assignment dueDate, reject when late and
allowLateSubmission is false, otherwise create the submission document
(saving runs the pre-save hook). -/
def submitAssignment (a : Assignment) (now : ℤ) :
    Except SubmitError Submission :=
  let isLate := submittedLate now a.dueDate
  if isLate = true ∧ a.allowLateSubmission = false then
    Except.error SubmitError.lateSubmissionNotAllowed
  else
    Except.ok (submissionPreSave
      { submittedAt := now, isLate := isLate, status := SubStatus.submitted,
        grade := none, feedback := none } a)

/-- PUT /api/submissions/:id/grade (CODE_MAP.md lines 3581-3601): compute
percentage = points / totalPoints * 100, subtract the penalty when the
submission is late and latePenalty > 0, write the grade subdocument, set
status to graded, and save (running the submission pre-save hook with the
current assignment). -/
def gradeSubmission (s : Submission) (a : Assignment) (points : ℚ)
    (feedback : String) : Submission :=
  let pct := points / a.totalPoints * 100
  let pct2 :=
    if s.isLate = true ∧ a.latePenalty > 0 then
      pct - pct * (a.latePenalty / 100)
    else pct
  submissionPreSave
    { s with
      grade := some { points := points, percentage := some pct2,
                      letterGrade := none },
      status := SubStatus.graded,
      feedback := some feedback } a

/-! ## Final course grades

Source: the Grade schema and its pre-save hook (MockModels.js lines
3374-3439), route POST /api/grades (CODE_MAP.md lines 3746-3767: find or
create, refuse when isFinalized) and route PUT /api/grades/:id/finalize
(CODE_MAP.md lines 3771-3779: set isFinalized true). -/

/-- Grade document for a (student, course) pair (MockModels.js lines
3374-3411). -/
structure GradeDoc where
  percentage : ℚ
  letterGrade : String
  gpa : ℚ
  isFinalized : Bool
deriving DecidableEq, Repr

/-- Pre-save hook of gradeSchema (MockModels.js lines 3416-3439): recompute
letterGrade and gpa from percentage. -/
def gradePreSave (g : GradeDoc) : GradeDoc :=
  { g with letterGrade := gradeLetterGrade g.percentage,
           gpa := gradeGpa g.percentage }

/-- Error kind of the grade routes (CODE_MAP.md; the route answers with
status 400, message Grade is finalized). -/
inductive GradeError where
  | alreadyFinalized
deriving DecidableEq, Repr

/-- POST /api/grades (CODE_MAP.md lines 3746-3767): on an existing grade
document, refuse with the finalized error when isFinalized, otherwise
update the percentage and save (running the grade pre-save hook).  Returns
the stored document together with the error, if any. -/
def upsertGrade (g : GradeDoc) (percentage : ℚ) :
    GradeDoc × Option GradeError :=
  if g.isFinalized = true then (g, some GradeError.alreadyFinalized)
  else (gradePreSave { g with percentage := percentage }, none)

/-- PUT /api/grades/:id/finalize (CODE_MAP.md lines 3771-3779): set
isFinalized to true. -/
def finalizeGrade (g : GradeDoc) : GradeDoc :=
  { g with isFinalized := true }

/-- Repeated POST /api/grades calls, keeping the stored document. -/
def upsertMany (g : GradeDoc) (ps : List ℚ) : GradeDoc :=
  ps.foldl (fun st p => (upsertGrade st p).1) g

/-! ## Cumulative GPA

Source: GET /api/grades/student/:studentId (CODE_MAP.md lines 3729-3733)
and the cumulative-GPA computation (CODE_MAP.md lines 1143-1147):
grades.reduce((sum, g) => sum + g.gpa, 0) / grades.length. -/

/-- A row of the grades collection as read by the GPA query; the query
Grade.find({student}) does not filter on isFinalized. -/
structure GradeRow where
  gpa : ℚ
  isFinalized : Bool
deriving DecidableEq, Repr

/-- Result of a JavaScript floating-point division: NaN for 0/0, a signed
infinity for x/0 with x nonzero, otherwise a finite value. -/
inductive JsNum where
  | nan
  | inf
  | val (q : ℚ)
deriving DecidableEq, Repr

/-- JavaScript division on numbers, keeping the divide-by-zero behaviour. -/
def jsDiv (a b : ℚ) : JsNum :=
  if b = 0 then (if a = 0 then JsNum.nan else JsNum.inf)
  else JsNum.val (a / b)

/-- The overallGPA computation of GET /api/grades/student/:studentId
(CODE_MAP.md lines 3729-3733 and 1143-1147): reduce over all of the rows
with initial value 0, divided by the number of rows. -/
def overallGPA (grades : List GradeRow) : JsNum :=
  jsDiv (grades.foldl (fun sum g => sum + g.gpa) 0) (grades.length : ℚ)

/-! ## Enrollment ledger

Source: the Course and Enrollment schemas (MockModels.js lines 2912-2920,
2949-2950, 3024-3066), route POST /api/enrollments (CODE_MAP.md lines
3245-3270: check approved, check not full, unique (student, course) index,
create the enrollment, increment course.currentEnrollment via $inc) and
route DELETE /api/enrollments/:id (CODE_MAP.md lines 3342-3351: set the
status to dropped and decrement course.currentEnrollment, with no check of
the current status and no floor at zero).  The model follows one course;
currentEnrollment is an integer because $inc is unguarded.  Enrollment ids
are assigned from a running counter as in mockDb.js
(nextEnrollmentId++). -/

/-- Enrollment status enum (MockModels.js lines 3039-3043). -/
inductive EnrStatus where
  | enrolled
  | completed
  | dropped
  | suspended
deriving DecidableEq, Repr

/-- One enrollment row for the course under consideration. -/
structure EnrRecord where
  id : ℕ
  student : ℕ
  status : EnrStatus
deriving DecidableEq, Repr

/-- The course document fields touched by enrollment operations, together
with the enrollment rows of that course and the id counter. -/
structure LedgerState where
  isApproved : Bool
  maxStudents : ℕ
  currentEnrollment : ℤ
  enrollments : List EnrRecord
  nextId : ℕ
deriving DecidableEq, Repr

/-- Error kinds of the enrollment routes (CODE_MAP.md lines 3262-3266). -/
inductive EnrollError where
  | courseNotApproved
  | courseFull
  | duplicateEnrollment
  | notFound
deriving DecidableEq, Repr

/-- A fresh course with no enrollments (currentEnrollment defaults to 0). -/
def initLedger (isApproved : Bool) (maxStudents : ℕ) : LedgerState :=
  { isApproved := isApproved, maxStudents := maxStudents,
    currentEnrollment := 0, enrollments := [], nextId := 0 }

/-- POST /api/enrollments (CODE_MAP.md lines 3245-3270): check the course is
approved, check currentEnrollment < maxStudents, check no existing
(student, course) row of any status (the unique index), then create the row
with status enrolled and increment currentEnrollment. -/
def enrollStudent (S : LedgerState) (student : ℕ) :
    Except EnrollError LedgerState :=
  if S.isApproved = false then Except.error EnrollError.courseNotApproved
  else if (S.maxStudents : ℤ) ≤ S.currentEnrollment then
    Except.error EnrollError.courseFull
  else if S.enrollments.any (fun r => r.student == student) then
    Except.error EnrollError.duplicateEnrollment
  else
    Except.ok
      { S with
        enrollments :=
          S.enrollments ++
            [{ id := S.nextId, student := student,
               status := EnrStatus.enrolled }],
        currentEnrollment := S.currentEnrollment + 1,
        nextId := S.nextId + 1 }

/-- Status change applied by the drop route to the row with the given id. -/
def dropRecord (id : ℕ) (r : EnrRecord) : EnrRecord :=
  if r.id = id then { r with status := EnrStatus.dropped } else r

/-- DELETE /api/enrollments/:id (CODE_MAP.md lines 3342-3351): when the row
exists, set its status to dropped and decrement currentEnrollment; the
route checks neither the current status nor a floor at zero. -/
def dropEnrollment (S : LedgerState) (id : ℕ) :
    Except EnrollError LedgerState :=
  if S.enrollments.any (fun r => r.id == id) then
    Except.ok
      { S with
        enrollments := S.enrollments.map (dropRecord id),
        currentEnrollment := S.currentEnrollment - 1 }
  else Except.error EnrollError.notFound

/-- An enrollment request or a drop request arriving at the ledger. -/
inductive LedgerOp where
  | enroll (student : ℕ)
  | drop (id : ℕ)
deriving DecidableEq, Repr

/-- Run one operation; a failed operation leaves the state unchanged. -/
def runLedgerOp (S : LedgerState) (op : LedgerOp) : LedgerState :=
  match op with
  | LedgerOp.enroll s =>
    match enrollStudent S s with
    | Except.ok S2 => S2
    | Except.error _ => S
  | LedgerOp.drop id =>
    match dropEnrollment S id with
    | Except.ok S2 => S2
    | Except.error _ => S

/-- Run a finite sequence of enroll and drop operations. -/
def runLedger (S : LedgerState) (ops : List LedgerOp) : LedgerState :=
  ops.foldl runLedgerOp S

/-- A row counts as active when its status is enrolled or completed. -/
def isActiveEnr (r : EnrRecord) : Bool :=
  match r.status with
  | EnrStatus.enrolled => true
  | EnrStatus.completed => true
  | _ => false

/-- Number of rows with status enrolled or completed. -/
def countActive (l : List EnrRecord) : ℕ :=
  (l.filter isActiveEnr).length

/-- A drop request is sound when every row carrying the requested id still
has status enrolled (dropping a missing id is harmless and allowed). -/
def okOp (S : LedgerState) : LedgerOp → Prop
  | LedgerOp.enroll _ => True
  | LedgerOp.drop id =>
    ∀ r ∈ S.enrollments, r.id = id → r.status = EnrStatus.enrolled

/-- Operation sequences in which every drop, at the moment it executes,
targets an enrollment that is still in status enrolled. -/
inductive SafeOps : LedgerState → List LedgerOp → Prop where
  | nil (S : LedgerState) : SafeOps S []
  | cons (S : LedgerState) (op : LedgerOp) (ops : List LedgerOp)
      (hok : okOp S op) (hrest : SafeOps (runLedgerOp S op) ops) :
      SafeOps S (op :: ops)

/-! ## Helper lemmas -/

/-- Folding gpa values starting from an arbitrary accumulator. -/
theorem foldl_gpa_eq (rows : List GradeRow) :
    ∀ init : ℚ, rows.foldl (fun s g => s + g.gpa) init
      = init + (rows.map GradeRow.gpa).sum := by
  induction rows with
  | nil => intro init; simp
  | cons r rest ih =>
    intro init
    simp [List.foldl_cons, ih (init + r.gpa), List.map_cons, List.sum_cons]
    ring

/-- Setting the isFinalized flags leaves the gpa fold unchanged. -/
theorem foldl_gpa_map_flag (rows : List GradeRow) (b : Bool) :
    ∀ init : ℚ,
      (rows.map (fun r => { r with isFinalized := b })).foldl
          (fun s g => s + g.gpa) init
        = rows.foldl (fun s g => s + g.gpa) init := by
  induction rows with
  | nil => intro init; simp
  | cons r rest ih => intro init; simp [List.foldl_cons, ih]

/-- dropRecord leaves a list unchanged when no row carries the id. -/
theorem map_dropRecord_of_not_mem (id : ℕ) :
    ∀ l : List EnrRecord, (∀ r ∈ l, r.id ≠ id) →
      l.map (dropRecord id) = l := by
  intro l
  induction l with
  | nil => intro _; rfl
  | cons r rest ih =>
    intro h
    have hr : r.id ≠ id := h r (List.mem_cons_self r rest)
    have hhead : dropRecord id r = r := by
      unfold dropRecord
      rw [if_neg hr]
    simp only [List.map_cons, hhead,
      ih (fun x hx => h x (List.mem_cons_of_mem r hx))]

/-- dropRecord keeps the id field. -/
theorem dropRecord_id (id : ℕ) (r : EnrRecord) :
    (dropRecord id r).id = r.id := by
  unfold dropRecord
  split <;> rfl

/-- Mapping dropRecord does not change the list of ids. -/
theorem map_id_map_dropRecord (id : ℕ) (l : List EnrRecord) :
    (l.map (dropRecord id)).map EnrRecord.id = l.map EnrRecord.id := by
  induction l with
  | nil => rfl
  | cons r rest ih => simp only [List.map_cons, ih, dropRecord_id]

/-- countActive distributes over append. -/
theorem countActive_append (l1 l2 : List EnrRecord) :
    countActive (l1 ++ l2) = countActive l1 + countActive l2 := by
  unfold countActive
  rw [List.filter_append, List.length_append]

/-- countActive over a cons. -/
theorem countActive_cons (x : EnrRecord) (l : List EnrRecord) :
    countActive (x :: l)
      = (if isActiveEnr x = true then 1 else 0) + countActive l := by
  unfold countActive
  rw [List.filter_cons]
  split <;> simp [Nat.add_comm]

/-- Dropping the unique row that carries the requested id, while that row is
still enrolled, lowers the active count by exactly one. -/
theorem countActive_map_dropRecord (id : ℕ) :
    ∀ l : List EnrRecord, (l.map EnrRecord.id).Nodup →
      (∃ r ∈ l, r.id = id ∧ r.status = EnrStatus.enrolled) →
      countActive (l.map (dropRecord id)) + 1 = countActive l := by
  intro l
  induction l with
  | nil =>
    intro _ hex
    simp at hex
  | cons r rest ih =>
    intro hnd hex
    rw [List.map_cons, List.nodup_cons] at hnd
    obtain ⟨hnm, hnd2⟩ := hnd
    by_cases hid : r.id = id
    · have hstat : r.status = EnrStatus.enrolled := by
        obtain ⟨x, hx, hxid, hxst⟩ := hex
        rcases List.mem_cons.mp hx with hxr | hxr
        · rw [← hxr]
          exact hxst
        · exfalso
          apply hnm
          have : x.id ∈ rest.map EnrRecord.id :=
            List.mem_map_of_mem EnrRecord.id hxr
          rw [hxid, ← hid] at this
          exact this
      have hrest : rest.map (dropRecord id) = rest := by
        apply map_dropRecord_of_not_mem
        intro x hx hxid
        apply hnm
        have : x.id ∈ rest.map EnrRecord.id :=
          List.mem_map_of_mem EnrRecord.id hx
        rw [hxid, ← hid] at this
        exact this
      have hhead : dropRecord id r = { r with status := EnrStatus.dropped } := by
        unfold dropRecord
        rw [if_pos hid]
      rw [List.map_cons, hhead, hrest, countActive_cons, countActive_cons]
      have h1 : isActiveEnr { r with status := EnrStatus.dropped } = false := rfl
      have h2 : isActiveEnr r = true := by
        unfold isActiveEnr
        rw [hstat]
      rw [h1, h2]
      simp
      omega
    · have hrest : ∃ x ∈ rest, x.id = id ∧ x.status = EnrStatus.enrolled := by
        obtain ⟨x, hx, hxid, hxst⟩ := hex
        rcases List.mem_cons.mp hx with hxr | hxr
        · exfalso
          apply hid
          rw [← hxr] at *
          exact hxid
        · exact ⟨x, hxr, hxid, hxst⟩
      have hhead : dropRecord id r = r := by
        unfold dropRecord
        rw [if_neg hid]
      rw [List.map_cons, hhead, countActive_cons, countActive_cons]
      have := ih hnd2 hrest
      omega

/-- Invariant tying the denormalized seat counter to the enrollment rows. -/
def LedgerInv (S : LedgerState) : Prop :=
  S.currentEnrollment = (countActive S.enrollments : ℤ) ∧
  S.currentEnrollment ≤ (S.maxStudents : ℤ) ∧
  (∀ r ∈ S.enrollments, r.id < S.nextId) ∧
  (S.enrollments.map EnrRecord.id).Nodup

/-- The fresh course satisfies the invariant. -/
theorem ledgerInv_init (approved : Bool) (m : ℕ) :
    LedgerInv (initLedger approved m) := by
  refine ⟨by simp [initLedger, countActive], by simp [initLedger], ?_, ?_⟩
  · intro r hr
    simp [initLedger] at hr
  · simp [initLedger]

/-- Neither operation changes maxStudents. -/
theorem runLedgerOp_maxStudents (S : LedgerState) (op : LedgerOp) :
    (runLedgerOp S op).maxStudents = S.maxStudents := by
  cases op with
  | enroll s =>
    simp only [runLedgerOp]
    unfold enrollStudent
    split_ifs <;> rfl
  | drop id =>
    simp only [runLedgerOp]
    unfold dropEnrollment
    split_ifs <;> rfl

/-- maxStudents is constant along any run. -/
theorem runLedger_maxStudents :
    ∀ (ops : List LedgerOp) (S : LedgerState),
      (runLedger S ops).maxStudents = S.maxStudents := by
  intro ops
  induction ops with
  | nil => intro S; rfl
  | cons op rest ih =>
    intro S
    show (runLedger (runLedgerOp S op) rest).maxStudents = S.maxStudents
    rw [ih (runLedgerOp S op), runLedgerOp_maxStudents]

/-- One sound operation preserves the invariant. -/
theorem ledgerInv_runOp (S : LedgerState) (op : LedgerOp)
    (hok : okOp S op) (h : LedgerInv S) : LedgerInv (runLedgerOp S op) := by
  obtain ⟨h1, h2, h3, h4⟩ := h
  cases op with
  | enroll s =>
    by_cases ha : S.isApproved = false
    · have he : enrollStudent S s = Except.error EnrollError.courseNotApproved := by
        unfold enrollStudent
        rw [if_pos ha]
      simp only [runLedgerOp, he]
      exact ⟨h1, h2, h3, h4⟩
    · by_cases hf : (S.maxStudents : ℤ) ≤ S.currentEnrollment
      · have he : enrollStudent S s = Except.error EnrollError.courseFull := by
          unfold enrollStudent
          rw [if_neg ha, if_pos hf]
        simp only [runLedgerOp, he]
        exact ⟨h1, h2, h3, h4⟩
      · by_cases hd : S.enrollments.any (fun r => r.student == s) = true
        · have he : enrollStudent S s
              = Except.error EnrollError.duplicateEnrollment := by
            unfold enrollStudent
            rw [if_neg ha, if_neg hf, if_pos hd]
          simp only [runLedgerOp, he]
          exact ⟨h1, h2, h3, h4⟩
        · have he : enrollStudent S s = Except.ok
              { S with
                enrollments := S.enrollments ++
                  [{ id := S.nextId, student := s,
                     status := EnrStatus.enrolled }],
                currentEnrollment := S.currentEnrollment + 1,
                nextId := S.nextId + 1 } := by
            unfold enrollStudent
            rw [if_neg ha, if_neg hf, if_neg hd]
          simp only [runLedgerOp, he]
          refine ⟨?_, ?_, ?_, ?_⟩
          · show S.currentEnrollment + 1
              = (countActive (S.enrollments ++
                  [{ id := S.nextId, student := s,
                     status := EnrStatus.enrolled }]) : ℤ)
            rw [countActive_append]
            have hone : countActive
                [{ id := S.nextId, student := s,
                   status := EnrStatus.enrolled }] = 1 := rfl
            rw [hone, h1]
            push_cast
            ring
          · show S.currentEnrollment + 1 ≤ (S.maxStudents : ℤ)
            omega
          · intro r hr
            rcases List.mem_append.mp hr with hro | hrn
            · exact Nat.lt_succ_of_lt (h3 r hro)
            · rw [List.mem_singleton] at hrn
              rw [hrn]
              exact Nat.lt_succ_self _
          · show ((S.enrollments ++ _).map EnrRecord.id).Nodup
            rw [List.map_append, List.nodup_append]
            refine ⟨h4, List.nodup_singleton _, ?_⟩
            intro a ha2 hb
            simp only [List.map_cons, List.map_nil,
              List.mem_singleton] at hb
            rcases List.mem_map.mp ha2 with ⟨r, hr, hrid⟩
            have := h3 r hr
            omega
  | drop id =>
    by_cases he : S.enrollments.any (fun r => r.id == id) = true
    · have hdrop : dropEnrollment S id = Except.ok
          { S with
            enrollments := S.enrollments.map (dropRecord id),
            currentEnrollment := S.currentEnrollment - 1 } := by
        unfold dropEnrollment
        rw [if_pos he]
      simp only [runLedgerOp, hdrop]
      have hex : ∃ r ∈ S.enrollments, r.id = id ∧
          r.status = EnrStatus.enrolled := by
        rcases List.any_eq_true.mp he with ⟨x, hx, hxid⟩
        rw [beq_iff_eq] at hxid
        exact ⟨x, hx, hxid, hok x hx hxid⟩
      have hkey := countActive_map_dropRecord id S.enrollments h4 hex
      refine ⟨?_, ?_, ?_, ?_⟩
      · show S.currentEnrollment - 1
          = (countActive (S.enrollments.map (dropRecord id)) : ℤ)
        omega
      · show S.currentEnrollment - 1 ≤ (S.maxStudents : ℤ)
        omega
      · intro r hr
        rcases List.mem_map.mp hr with ⟨r0, hr0, hreq⟩
        rw [← hreq, dropRecord_id]
        exact h3 r0 hr0
      · show ((S.enrollments.map (dropRecord id)).map EnrRecord.id).Nodup
        rw [map_id_map_dropRecord]
        exact h4
    · have hdrop : dropEnrollment S id = Except.error EnrollError.notFound := by
        unfold dropEnrollment
        rw [if_neg he]
      simp only [runLedgerOp, hdrop]
      exact ⟨h1, h2, h3, h4⟩

/-- A sound run preserves the invariant. -/
theorem ledgerInv_run :
    ∀ (ops : List LedgerOp) (S : LedgerState),
      LedgerInv S → SafeOps S ops → LedgerInv (runLedger S ops) := by
  intro ops
  induction ops with
  | nil => intro S h _; exact h
  | cons op rest ih =>
    intro S h hsafe
    cases hsafe with
    | cons _ _ _ hok hrest =>
      show LedgerInv (runLedger (runLedgerOp S op) rest)
      exact ih (runLedgerOp S op) (ledgerInv_runOp S op hok h) hrest

/-- The spec breakpoint table is the pair of the grade-schema letter and GPA
functions. -/
theorem specBreakpointTable_eq (p : ℚ) :
    specBreakpointTable p = (gradeLetterGrade p, gradeGpa p) := by
  unfold specBreakpointTable gradeLetterGrade gradeGpa
  by_cases h1 : p ≥ 97
  · simp only [if_pos h1]
  simp only [if_neg h1]
  by_cases h2 : p ≥ 93
  · simp only [if_pos h2]
  simp only [if_neg h2]
  by_cases h3 : p ≥ 90
  · simp only [if_pos h3]
  simp only [if_neg h3]
  by_cases h4 : p ≥ 87
  · simp only [if_pos h4]
  simp only [if_neg h4]
  by_cases h5 : p ≥ 83
  · simp only [if_pos h5]
  simp only [if_neg h5]
  by_cases h6 : p ≥ 80
  · simp only [if_pos h6]
  simp only [if_neg h6]
  by_cases h7 : p ≥ 77
  · simp only [if_pos h7]
  simp only [if_neg h7]
  by_cases h8 : p ≥ 73
  · simp only [if_pos h8]
  simp only [if_neg h8]
  by_cases h9 : p ≥ 70
  · simp only [if_pos h9]
  simp only [if_neg h9]
  by_cases h10 : p ≥ 67
  · simp only [if_pos h10]
  simp only [if_neg h10]
  by_cases h11 : p ≥ 60
  · simp only [if_pos h11]
  simp only [if_neg h11]

/-! ## Claim theorems -/

/-- C3: starting from a zeroed attendance summary, one session with status
present yields totalClasses 1, attendedClasses 1, percentage 100, and a
following session with status absent yields 2, 1, 50; in general each
session adds one to totalClasses, adds one to attendedClasses exactly when
the status is present or late, and recomputes the percentage as
attendedClasses / totalClasses * 100. -/
theorem attendanceAggregator_session_update :
    applySessionStatus ⟨0, 0, 0⟩ AttStatus.present = ⟨1, 1, 100⟩ ∧
    applySessionStatus ⟨1, 1, 100⟩ AttStatus.absent = ⟨2, 1, 50⟩ ∧
    ∀ (a : AttendanceSummary) (st : AttStatus),
      (applySessionStatus a st).totalClasses = a.totalClasses + 1 ∧
      (applySessionStatus a st).attendedClasses =
        a.attendedClasses +
          (if st = AttStatus.present ∨ st = AttStatus.late then 1 else 0) ∧
      (applySessionStatus a st).attendancePercentage =
        ((applySessionStatus a st).attendedClasses : ℚ) /
          ((applySessionStatus a st).totalClasses : ℚ) * 100 := by
  refine ⟨?_, ?_, ?_⟩
  · norm_num [applySessionStatus, enrollmentPreSave]
  · unfold applySessionStatus
    rw [if_neg (by decide :
      ¬(AttStatus.absent = AttStatus.present ∨ AttStatus.absent = AttStatus.late))]
    norm_num [enrollmentPreSave]
  · intro a st
    refine ⟨?_, ?_, ?_⟩
    · simp [applySessionStatus, enrollmentPreSave]
    · simp only [applySessionStatus, enrollmentPreSave]
      split_ifs <;> simp
    · simp [applySessionStatus, enrollmentPreSave]

/-- C4: grading the late submission of a 100-point assignment carrying a 10
percent late penalty with 80 points stores percentage 72 and letter grade
C-; in general, for a late submission under a policy that allows late
submissions, the stored percentage is the raw percentage minus
raw percentage times penalty over 100, floored at 0. -/
theorem submissionGrader_late_penalty :
    (gradeSubmission ⟨20, true, SubStatus.submitted, none, none⟩
        ⟨100, 10, true, 10⟩ 80 "good work").grade
      = some ⟨80, some 72, some "C-"⟩ ∧
    ∀ (s : Submission) (a : Assignment) (points : ℚ) (fb : String),
      a.dueDate < s.submittedAt → a.allowLateSubmission = true →
      0 ≤ a.latePenalty → 0 < a.totalPoints →
      ((gradeSubmission s a points fb).grade.bind SubGrade.percentage)
        = some (max 0 (points / a.totalPoints * 100
            - points / a.totalPoints * 100 * (a.latePenalty / 100))) := by
  constructor
  · norm_num [gradeSubmission, submissionPreSave, submittedLate,
      calculateLetterGrade]
  · intro s a points fb hlate hallow hpp htp
    have hdec : submittedLate s.submittedAt a.dueDate = true := by
      unfold submittedLate
      exact decide_eq_true hlate
    by_cases hp : points = 0
    · subst hp
      simp only [gradeSubmission, submissionPreSave, submittedLate,
        decide_eq_true_eq, hlate, true_and, if_true]
      norm_num
    · rcases eq_or_lt_of_le hpp with hpp0 | hpps
      · have hpe : a.latePenalty = 0 := hpp0.symm
        simp only [gradeSubmission, submissionPreSave, hdec, hpe]
        rw [if_pos hp]
        simp only [Option.some_bind]
        rw [if_neg (by simp : ¬(True ∧ (0 : ℚ) > 0))]
        norm_num
      · simp only [gradeSubmission, submissionPreSave, hdec]
        rw [if_pos hp]
        simp only [Option.some_bind]
        rw [if_pos (⟨trivial, hpps⟩ : True ∧ a.latePenalty > 0)]

/-- C4 witness: the general late-penalty formula evaluated at the concrete
80-point grading of the 100-point assignment with a 10 percent penalty. -/
theorem submissionGrader_late_penalty_witness :
    (((⟨100, 10, true, 10⟩ : Assignment).dueDate
        < (⟨20, true, SubStatus.submitted, none, none⟩ : Submission).submittedAt) ∧
      (⟨100, 10, true, 10⟩ : Assignment).allowLateSubmission = true ∧
      (0 : ℚ) ≤ (⟨100, 10, true, 10⟩ : Assignment).latePenalty ∧
      (0 : ℚ) < (⟨100, 10, true, 10⟩ : Assignment).totalPoints) ∧
    ((gradeSubmission ⟨20, true, SubStatus.submitted, none, none⟩
        ⟨100, 10, true, 10⟩ 80 "good work").grade.bind SubGrade.percentage)
      = some (max 0 ((80 : ℚ) / (⟨100, 10, true, 10⟩ : Assignment).totalPoints * 100
          - (80 : ℚ) / (⟨100, 10, true, 10⟩ : Assignment).totalPoints * 100
            * ((⟨100, 10, true, 10⟩ : Assignment).latePenalty / 100))) :=
  ⟨⟨by decide, rfl, by norm_num, by norm_num⟩,
   submissionGrader_late_penalty.2
     ⟨20, true, SubStatus.submitted, none, none⟩ ⟨100, 10, true, 10⟩ 80
     "good work" (by decide) rfl (by norm_num) (by norm_num)⟩

/-- C8 counterexample: a late submission of an assignment that does not
allow late submissions is graded anyway; the grading operation persists a
grade (with the penalty applied) instead of failing. -/
theorem grading_late_disallowed_counterexample :
    gradeSubmission ⟨20, true, SubStatus.submitted, none, none⟩
        ⟨100, 10, false, 10⟩ 80 "x"
      = ⟨20, true, SubStatus.graded, some ⟨80, some 72, some "C-"⟩,
          some "x"⟩ := by
  norm_num [gradeSubmission, submissionPreSave, submittedLate,
    calculateLetterGrade]

/-- C8 amended: the allowLateSubmission policy is enforced at submission
time (POST /api/submissions rejects a late submission when the policy
forbids it), while the grading operation performs no such check: it always
sets the status to graded and persists a grade subdocument. -/
theorem lateSubmission_rejected_at_submit_not_grading :
    (∀ (a : Assignment) (now : ℤ), a.dueDate < now →
      a.allowLateSubmission = false →
      submitAssignment a now
        = Except.error SubmitError.lateSubmissionNotAllowed) ∧
    (∀ (s : Submission) (a : Assignment) (points : ℚ) (fb : String),
      (gradeSubmission s a points fb).status = SubStatus.graded ∧
      ((gradeSubmission s a points fb).grade).isSome = true) := by
  constructor
  · intro a now hlate hpolicy
    simp [submitAssignment, submittedLate, hlate, hpolicy]
  · intro s a points fb
    constructor <;>
      · simp only [gradeSubmission, submissionPreSave]
        split_ifs <;> simp

/-- C8 witness: the submission-time rejection and the grading persistence
evaluated at concrete inputs. -/
theorem lateSubmission_rejected_at_submit_not_grading_witness :
    ((10 : ℤ) < 20 ∧
      (⟨100, 10, false, 10⟩ : Assignment).allowLateSubmission = false ∧
      submitAssignment ⟨100, 10, false, 10⟩ 20
        = Except.error SubmitError.lateSubmissionNotAllowed) ∧
    (gradeSubmission ⟨20, true, SubStatus.submitted, none, none⟩
        ⟨100, 10, false, 10⟩ 80 "x").status = SubStatus.graded ∧
    ((gradeSubmission ⟨20, true, SubStatus.submitted, none, none⟩
        ⟨100, 10, false, 10⟩ 80 "x").grade).isSome = true :=
  ⟨⟨by decide, rfl,
    lateSubmission_rejected_at_submit_not_grading.1
      ⟨100, 10, false, 10⟩ 20 (by decide) rfl⟩,
   (lateSubmission_rejected_at_submit_not_grading.2
      ⟨20, true, SubStatus.submitted, none, none⟩
      ⟨100, 10, false, 10⟩ 80 "x").1,
   (lateSubmission_rejected_at_submit_not_grading.2
      ⟨20, true, SubStatus.submitted, none, none⟩
      ⟨100, 10, false, 10⟩ 80 "x").2⟩

/-- C9 counterexample: a submission created before the due date carries
isLate false, but grading it after the due date was moved earlier
recomputes isLate against the current due date and flips it to true. -/
theorem isLate_immutable_counterexample :
    submitAssignment ⟨100, 10, true, 0⟩ 5
      = Except.ok ⟨5, false, SubStatus.submitted, none, none⟩ ∧
    (⟨5, false, SubStatus.submitted, none, none⟩ : Submission).isLate
      = false ∧
    (gradeSubmission ⟨5, false, SubStatus.submitted, none, none⟩
        ⟨100, 3, true, 0⟩ 80 "x").isLate = true := by
  refine ⟨?_, rfl, ?_⟩
  · simp [submitAssignment, submittedLate, submissionPreSave]
  · simp [gradeSubmission, submissionPreSave, submittedLate]

/-- C9 amended: the submission pre-save hook recomputes isLate from the
assignment's current dueDate on every save, so the grading operation always
leaves isLate equal to the comparison of submittedAt with the current
dueDate, not with the dueDate at submission time. -/
theorem isLate_recomputed_on_save :
    ∀ (s : Submission) (a : Assignment) (points : ℚ) (fb : String),
      (gradeSubmission s a points fb).isLate
        = submittedLate s.submittedAt a.dueDate := by
  intro s a points fb
  simp only [gradeSubmission, submissionPreSave]
  split_ifs <;> rfl

/-- C5: finalize sets isFinalized; on a finalized grade document every
upsert call fails with the already-finalized error and returns the stored
document unchanged (in particular percentage and letterGrade keep their
values), and this holds for every later upsert, singly or in sequence. -/
theorem courseGrade_finalize_locks :
    (∀ g : GradeDoc, (finalizeGrade g).isFinalized = true) ∧
    (∀ (g : GradeDoc) (p : ℚ), g.isFinalized = true →
      upsertGrade g p = (g, some GradeError.alreadyFinalized)) ∧
    (∀ (g : GradeDoc) (p : ℚ),
      upsertGrade (finalizeGrade g) p
        = (finalizeGrade g, some GradeError.alreadyFinalized)) ∧
    (∀ (g : GradeDoc) (ps : List ℚ), g.isFinalized = true →
      upsertMany g ps = g) := by
  have hfin : ∀ g : GradeDoc, (finalizeGrade g).isFinalized = true := by
    intro g; rfl
  have hup : ∀ (g : GradeDoc) (p : ℚ), g.isFinalized = true →
      upsertGrade g p = (g, some GradeError.alreadyFinalized) := by
    intro g p h
    unfold upsertGrade
    rw [if_pos h]
  refine ⟨hfin, hup, ?_, ?_⟩
  · intro g p
    exact hup (finalizeGrade g) p (hfin g)
  · intro g ps h
    induction ps with
    | nil => rfl
    | cons p rest ih =>
      unfold upsertMany at ih ⊢
      rw [List.foldl_cons, hup g p h]
      exact ih

/-- C5 witness: a concrete finalized grade document rejects an upsert and a
sequence of upserts without change, and finalize sets the flag. -/
theorem courseGrade_finalize_locks_witness :
    (finalizeGrade ⟨85, "B", 3, false⟩).isFinalized = true ∧
    (GradeDoc.mk 85 "B" 3 true).isFinalized = true ∧
    upsertGrade ⟨85, "B", 3, true⟩ 50
      = (⟨85, "B", 3, true⟩, some GradeError.alreadyFinalized) ∧
    upsertMany ⟨85, "B", 3, true⟩ [50, 99] = ⟨85, "B", 3, true⟩ :=
  ⟨courseGrade_finalize_locks.1 _, rfl,
   courseGrade_finalize_locks.2.1 _ _ rfl,
   courseGrade_finalize_locks.2.2.2 _ _ rfl⟩

/-- C6: the letter table of the submission pre-save hook and the letter
table of the grade pre-save hook are the same function, and the grade hook
GPA agrees with the single breakpoint table of the spec at every
percentage. -/
theorem letter_grade_tables_agree :
    ∀ p : ℚ,
      calculateLetterGrade p = gradeLetterGrade p ∧
      gradeLetterGrade p = (specBreakpointTable p).1 ∧
      gradeGpa p = (specBreakpointTable p).2 := by
  intro p
  refine ⟨rfl, ?_, ?_⟩ <;> rw [specBreakpointTable_eq p]

/-- C7 counterexample: 97 lies in the interval from 93 to 100, but the grade
table maps it to A+, not to A. -/
theorem gradeCalculator_A_range_counterexample :
    (93 : ℚ) ≤ 97 ∧ (97 : ℚ) < 100 ∧
    gradeLetterGrade 97 = "A+" ∧ gradeLetterGrade 97 ≠ "A" := by
  have h : gradeLetterGrade 97 = "A+" := by
    unfold gradeLetterGrade
    norm_num
  exact ⟨by norm_num, by norm_num, h, by rw [h]; decide⟩

/-- C7 amended: percentages in the interval from 93 below 97 map to A with
GPA 4.0 (97 and above map to A+ with GPA 4.0), percentages from 0 below 60
map to F with GPA 0.0, and the boundary inputs 93, 90 and 60 map to A 4.0,
A- 3.7 and D 1.0. -/
theorem gradeCalculator_breakpoints :
    (∀ p : ℚ, 93 ≤ p → p < 97 →
      gradeLetterGrade p = "A" ∧ gradeGpa p = 4.0) ∧
    (∀ p : ℚ, 97 ≤ p →
      gradeLetterGrade p = "A+" ∧ gradeGpa p = 4.0) ∧
    (∀ p : ℚ, 0 ≤ p → p < 60 →
      gradeLetterGrade p = "F" ∧ gradeGpa p = 0.0) ∧
    (gradeLetterGrade 93 = "A" ∧ gradeGpa 93 = 4.0) ∧
    (gradeLetterGrade 90 = "A-" ∧ gradeGpa 90 = 3.7) ∧
    (gradeLetterGrade 60 = "D" ∧ gradeGpa 60 = 1.0) := by
  refine ⟨?_, ?_, ?_, ?_, ?_, ?_⟩
  · intro p h1 h2
    refine ⟨?_, ?_⟩
    · unfold gradeLetterGrade
      rw [if_neg (not_le.mpr (by linarith : p < 97)),
          if_pos (by linarith : p ≥ 93)]
    · unfold gradeGpa
      rw [if_neg (not_le.mpr (by linarith : p < 97)),
          if_pos (by linarith : p ≥ 93)]
  · intro p h1
    refine ⟨?_, ?_⟩
    · unfold gradeLetterGrade
      rw [if_pos (by linarith : p ≥ 97)]
    · unfold gradeGpa
      rw [if_pos (by linarith : p ≥ 97)]
  · intro p h1 h2
    refine ⟨?_, ?_⟩
    · unfold gradeLetterGrade
      rw [if_neg (not_le.mpr (by linarith : p < 97)),
          if_neg (not_le.mpr (by linarith : p < 93)),
          if_neg (not_le.mpr (by linarith : p < 90)),
          if_neg (not_le.mpr (by linarith : p < 87)),
          if_neg (not_le.mpr (by linarith : p < 83)),
          if_neg (not_le.mpr (by linarith : p < 80)),
          if_neg (not_le.mpr (by linarith : p < 77)),
          if_neg (not_le.mpr (by linarith : p < 73)),
          if_neg (not_le.mpr (by linarith : p < 70)),
          if_neg (not_le.mpr (by linarith : p < 67)),
          if_neg (not_le.mpr (by linarith : p < 60))]
    · unfold gradeGpa
      rw [if_neg (not_le.mpr (by linarith : p < 97)),
          if_neg (not_le.mpr (by linarith : p < 93)),
          if_neg (not_le.mpr (by linarith : p < 90)),
          if_neg (not_le.mpr (by linarith : p < 87)),
          if_neg (not_le.mpr (by linarith : p < 83)),
          if_neg (not_le.mpr (by linarith : p < 80)),
          if_neg (not_le.mpr (by linarith : p < 77)),
          if_neg (not_le.mpr (by linarith : p < 73)),
          if_neg (not_le.mpr (by linarith : p < 70)),
          if_neg (not_le.mpr (by linarith : p < 67)),
          if_neg (not_le.mpr (by linarith : p < 60))]
  · exact ⟨by unfold gradeLetterGrade; norm_num, by unfold gradeGpa; norm_num⟩
  · exact ⟨by unfold gradeLetterGrade; norm_num, by unfold gradeGpa; norm_num⟩
  · exact ⟨by unfold gradeLetterGrade; norm_num, by unfold gradeGpa; norm_num⟩

/-- C7 witness: the amended ranges evaluated at 95, 98 and 30. -/
theorem gradeCalculator_breakpoints_witness :
    ((93 : ℚ) ≤ 95 ∧ (95 : ℚ) < 97 ∧ gradeLetterGrade 95 = "A") ∧
    ((97 : ℚ) ≤ 98 ∧ gradeLetterGrade 98 = "A+") ∧
    ((0 : ℚ) ≤ 30 ∧ (30 : ℚ) < 60 ∧
      gradeLetterGrade 30 = "F" ∧ gradeGpa 30 = 0.0) :=
  ⟨⟨by norm_num, by norm_num,
    (gradeCalculator_breakpoints.1 95 (by norm_num) (by norm_num)).1⟩,
   ⟨by norm_num, (gradeCalculator_breakpoints.2.1 98 (by norm_num)).1⟩,
   ⟨by norm_num, by norm_num,
    (gradeCalculator_breakpoints.2.2.1 30 (by norm_num) (by norm_num)).1,
    (gradeCalculator_breakpoints.2.2.1 30 (by norm_num) (by norm_num)).2⟩⟩

/-- C10: with zero grade rows the overall GPA computation divides zero by
zero and yields NaN (not 0 and not an error value); with at least one row it
yields the arithmetic mean of the gpa column over all rows; and the result
does not depend on the isFinalized flags. -/
theorem overallGPA_nan_and_mean :
    overallGPA [] = JsNum.nan ∧
    (∀ rows : List GradeRow, rows ≠ [] →
      overallGPA rows
        = JsNum.val ((rows.map GradeRow.gpa).sum / (rows.length : ℚ))) ∧
    (∀ (rows : List GradeRow) (b : Bool),
      overallGPA (rows.map (fun r => { r with isFinalized := b }))
        = overallGPA rows) := by
  refine ⟨by simp [overallGPA, jsDiv], ?_, ?_⟩
  · intro rows hne
    unfold overallGPA jsDiv
    have hlen : (rows.length : ℚ) ≠ 0 := by
      simpa [List.length_eq_zero] using hne
    rw [if_neg hlen, foldl_gpa_eq rows 0, zero_add]
  · intro rows b
    unfold overallGPA
    rw [foldl_gpa_map_flag rows b 0, List.length_map]

/-- C1 counterexample: on an approved course with two seats, the sequence
enroll, drop, drop (the second drop repeating the first, which the drop
route permits because it never checks the current status) drives
currentEnrollment to -1 while no active enrollment row exists, so the
counter neither matches the count of rows with status enrolled or completed
nor stays at or above zero. -/
theorem enrollLedger_double_drop_counterexample :
    (runLedger (initLedger true 2)
      [LedgerOp.enroll 1, LedgerOp.drop 0, LedgerOp.drop 0]).currentEnrollment
        = -1 ∧
    countActive (runLedger (initLedger true 2)
      [LedgerOp.enroll 1, LedgerOp.drop 0, LedgerOp.drop 0]).enrollments = 0 ∧
    ¬((runLedger (initLedger true 2)
        [LedgerOp.enroll 1, LedgerOp.drop 0, LedgerOp.drop 0]).currentEnrollment
      = (countActive (runLedger (initLedger true 2)
          [LedgerOp.enroll 1, LedgerOp.drop 0,
            LedgerOp.drop 0]).enrollments : ℤ)) ∧
    ¬(0 ≤ (runLedger (initLedger true 2)
        [LedgerOp.enroll 1, LedgerOp.drop 0,
          LedgerOp.drop 0]).currentEnrollment) := by
  decide

/-- C1 amended: along every sequence of enroll and drop operations in which
each drop targets an enrollment that is still in status enrolled,
currentEnrollment equals the number of enrollment rows with status enrolled
or completed, stays at or above zero and never exceeds maxSeats. -/
theorem enrollLedger_counter_invariant (approved : Bool) (m : ℕ)
    (ops : List LedgerOp) (h : SafeOps (initLedger approved m) ops) :
    (runLedger (initLedger approved m) ops).currentEnrollment
      = (countActive
          (runLedger (initLedger approved m) ops).enrollments : ℤ) ∧
    0 ≤ (runLedger (initLedger approved m) ops).currentEnrollment ∧
    (runLedger (initLedger approved m) ops).currentEnrollment ≤ (m : ℤ) := by
  obtain ⟨h1, h2, _, _⟩ :=
    ledgerInv_run ops (initLedger approved m) (ledgerInv_init approved m) h
  refine ⟨h1, ?_, ?_⟩
  · rw [h1]
    exact Int.natCast_nonneg _
  · have hm := runLedger_maxStudents ops (initLedger approved m)
    rw [hm] at h2
    exact h2

/-- C1 witness: the invariant evaluated after the safe sequence enroll then
drop of the created enrollment. -/
theorem enrollLedger_counter_invariant_witness :
    (runLedger (initLedger true 2)
      [LedgerOp.enroll 1, LedgerOp.drop 0]).currentEnrollment
      = (countActive (runLedger (initLedger true 2)
          [LedgerOp.enroll 1, LedgerOp.drop 0]).enrollments : ℤ) ∧
    0 ≤ (runLedger (initLedger true 2)
      [LedgerOp.enroll 1, LedgerOp.drop 0]).currentEnrollment ∧
    (runLedger (initLedger true 2)
      [LedgerOp.enroll 1, LedgerOp.drop 0]).currentEnrollment ≤ ((2 : ℕ) : ℤ) :=
  enrollLedger_counter_invariant true 2 [LedgerOp.enroll 1, LedgerOp.drop 0]
    (SafeOps.cons _ _ _ trivial
      (SafeOps.cons _ _ _ (by unfold okOp; decide) (SafeOps.nil _)))

/-- C2: an approved course whose currentEnrollment has reached maxSeats
rejects every enrollment request with the course-full error, and the failed
call leaves the state unchanged: no enrollment row is created and the
counter is not incremented. -/
theorem courseFull_enroll_rejected (S : LedgerState) (student : ℕ)
    (happ : S.isApproved = true)
    (hfull : S.currentEnrollment = (S.maxStudents : ℤ)) :
    enrollStudent S student = Except.error EnrollError.courseFull ∧
    runLedgerOp S (LedgerOp.enroll student) = S := by
  have hna : ¬(S.isApproved = false) := by
    rw [happ]
    simp
  have hle : (S.maxStudents : ℤ) ≤ S.currentEnrollment := hfull.symm.le
  have he : enrollStudent S student = Except.error EnrollError.courseFull := by
    unfold enrollStudent
    rw [if_neg hna, if_pos hle]
  refine ⟨he, ?_⟩
  simp only [runLedgerOp, he]

/-- C2 witness: a concrete approved single-seat course holding one enrolled
student rejects a further enrollment with the course-full error and is left
unchanged. -/
theorem courseFull_enroll_rejected_witness :
    (⟨true, 1, 1, [⟨0, 5, EnrStatus.enrolled⟩], 1⟩
        : LedgerState).isApproved = true ∧
    (⟨true, 1, 1, [⟨0, 5, EnrStatus.enrolled⟩], 1⟩
        : LedgerState).currentEnrollment
      = ((⟨true, 1, 1, [⟨0, 5, EnrStatus.enrolled⟩], 1⟩
          : LedgerState).maxStudents : ℤ) ∧
    enrollStudent ⟨true, 1, 1, [⟨0, 5, EnrStatus.enrolled⟩], 1⟩ 7
      = Except.error EnrollError.courseFull ∧
    runLedgerOp ⟨true, 1, 1, [⟨0, 5, EnrStatus.enrolled⟩], 1⟩
        (LedgerOp.enroll 7)
      = ⟨true, 1, 1, [⟨0, 5, EnrStatus.enrolled⟩], 1⟩ :=
  ⟨rfl, by decide,
   (courseFull_enroll_rejected _ 7 rfl (by decide)).1,
   (courseFull_enroll_rejected _ 7 rfl (by decide)).2⟩

/-- C10 witness: two concrete rows, one finalized and one not, give the mean
of their gpa values. -/
theorem overallGPA_nan_and_mean_witness :
    ([(⟨4, true⟩ : GradeRow), ⟨2, false⟩] ≠ ([] : List GradeRow)) ∧
    overallGPA [⟨4, true⟩, ⟨2, false⟩] = JsNum.val 3 := by
  have h := overallGPA_nan_and_mean.2.1 [⟨4, true⟩, ⟨2, false⟩]
    (by simp)
  refine ⟨by simp, ?_⟩
  rw [h]
  norm_num [List.sum_cons]

end Lms
